import Mathlib

/-!
Verification development for the Mesh_open_foam repository: a STEP → INP
mesh converter with an axis-stretch transform for existing INP meshes.

Coordinates are modelled as exact rationals (ℚ); the Python source uses
IEEE doubles, so "bit-identical" and "full precision" statements are read
as exact equality of the modelled values.

The repository's core module `mesh_converter/converter.py` (Step
Extractor, Inp Reader/Writer, Axis Stretcher, Summaries) is not present
under src/ — only its callers `main.py` and `gui.py` are.  Those core
operations are therefore modelled from the specification's own algorithm
descriptions (each such definition's doc comment starts with "Modelled
from the spec:").  The command-line dispatch logic is embedded directly
from src/main.py, which is present.
-/

namespace MeshConv

/-- A geometric point: three coordinates, modelled as exact rationals. -/
structure Point where
  x : ℚ
  y : ℚ
  z : ℚ
deriving DecidableEq

/-- An element: an element-type tag plus an ordered sequence of node ids. -/
structure Element where
  etype : String
  nodeIds : List Nat
deriving DecidableEq

/-- The in-memory mesh: an insertion-ordered id→point node mapping, an
ordered element list, and an ordered name→members entity-set mapping. -/
structure Mesh where
  nodes : List (Nat × Point)
  elements : List Element
  sets : List (String × List Nat)
deriving DecidableEq

/-- The node-id sequence of a node mapping, in insertion order. -/
def nodeIdsOf (nodes : List (Nat × Point)) : List Nat :=
  nodes.map Prod.fst

/-- The two error kinds raised by the core (converter module). -/
inductive ConvError where
  | stepError (msg : String)
  | inpError (msg : String)
deriving DecidableEq

/-! ## Command-line and interactive dispatch, embedded from src/main.py -/

/-- What the entry points do once they have looked at the input path's
(lower-cased) extension, before any file is opened or parsed. -/
inductive DispatchOutcome where
  | proceedConvert
  | proceedStretch
  | failInputFileError (msg : String)
  | failSystemExit (msg : String)
deriving DecidableEq

/-- Recognizer for the `failInputFileError` outcome. -/
def DispatchOutcome.isInputFileError : DispatchOutcome → Bool
  | .failInputFileError _ => true
  | _ => false

/-- The CLI dispatch of `main` in src/main.py (lines 198-254): `suffix` is
the lower-cased extension of the input path, `ex ey ez` the parsed
`--extend-x/y/z` values.  For a STEP suffix with any nonzero extension it
raises SystemExit before calling `convert_step_to_inp`; an unrecognized
suffix raises SystemExit (line 254) before any parsing. -/
def mainDispatch (suffix : String) (ex ey ez : ℚ) : DispatchOutcome :=
  if suffix = ".stp" ∨ suffix = ".step" then
    if 0 < |ex| ∨ 0 < |ey| ∨ 0 < |ez| then
      .failSystemExit "Axis extensions can only be used when providing an INP file as input."
    else
      .proceedConvert
  else if suffix = ".inp" then
    .proceedStretch
  else
    .failSystemExit "Input file must have a .stp, .step or .inp extension"

/-- The interactive-mode dispatch of `_interactive_mode` in src/main.py
(lines 94-185): an unrecognized lower-cased extension raises
InputFileError (line 185) before any parsing. -/
def interactiveDispatch (suffix : String) : DispatchOutcome :=
  if suffix = ".stp" ∨ suffix = ".step" then
    .proceedConvert
  else if suffix = ".inp" then
    .proceedStretch
  else
    .failInputFileError "Input file must have a .stp, .step or .inp extension"

/-- Claim C10: for a CLI invocation whose input extension is .stp or .step
and where some axis extension has absolute value greater than zero, `main`
terminates with SystemExit ("Axis extensions can only be used when
providing an INP file as input.") without invoking convert_step_to_inp. -/
theorem step_input_with_extensions_exits (suffix : String) (ex ey ez : ℚ)
    (hsuf : suffix = ".stp" ∨ suffix = ".step")
    (hext : 0 < |ex| ∨ 0 < |ey| ∨ 0 < |ez|) :
    mainDispatch suffix ex ey ez =
      .failSystemExit "Axis extensions can only be used when providing an INP file as input."
      ∧ mainDispatch suffix ex ey ez ≠ .proceedConvert := by
  unfold mainDispatch
  rw [if_pos hsuf, if_pos hext]
  exact ⟨rfl, by simp⟩

/-- Witness for C10 at suffix ".stp" with extend_x = 1. -/
theorem step_input_with_extensions_exits_witness :
    mainDispatch ".stp" 1 0 0 =
      .failSystemExit "Axis extensions can only be used when providing an INP file as input."
      ∧ mainDispatch ".stp" 1 0 0 ≠ .proceedConvert :=
  step_input_with_extensions_exits ".stp" 1 0 0 (Or.inl rfl)
    (Or.inl (by norm_num))

/-- Counterexample to claim C9 as stated: for the unsupported extension
".txt" the CLI entry point `main` (src/main.py line 254) terminates with
SystemExit, not with InputFileError. -/
theorem cli_bad_extension_systemexit_cex :
    DispatchOutcome.isInputFileError (mainDispatch ".txt" 0 0 0) = false
      ∧ mainDispatch ".txt" 0 0 0 =
        .failSystemExit "Input file must have a .stp, .step or .inp extension" :=
  ⟨rfl, rfl⟩

/-- Claim C9 (amended): for every input path whose lower-cased extension is
not .stp, .step or .inp, the operation fails before any parsing begins —
in interactive mode with InputFileError, in CLI mode with SystemExit
carrying the same message. -/
theorem bad_extension_dispatch (suffix : String) (ex ey ez : ℚ)
    (h1 : suffix ≠ ".stp") (h2 : suffix ≠ ".step") (h3 : suffix ≠ ".inp") :
    interactiveDispatch suffix =
      .failInputFileError "Input file must have a .stp, .step or .inp extension"
      ∧ mainDispatch suffix ex ey ez =
        .failSystemExit "Input file must have a .stp, .step or .inp extension" := by
  have hsuf : ¬ (suffix = ".stp" ∨ suffix = ".step") := by
    rintro (h | h)
    · exact h1 h
    · exact h2 h
  constructor
  · unfold interactiveDispatch
    rw [if_neg hsuf, if_neg h3]
  · unfold mainDispatch
    rw [if_neg hsuf, if_neg h3]

/-- Witness for C9 (amended) at suffix ".txt". -/
theorem bad_extension_dispatch_witness :
    interactiveDispatch ".txt" =
      .failInputFileError "Input file must have a .stp, .step or .inp extension"
      ∧ mainDispatch ".txt" 0 0 0 =
        .failSystemExit "Input file must have a .stp, .step or .inp extension" :=
  bad_extension_dispatch ".txt" 0 0 0 (by decide) (by decide) (by decide)

/-! ## Axis Stretcher -/

/-- A coordinate axis. -/
inductive Axis where
  | x
  | y
  | z
deriving DecidableEq

/-- Read one axis of a point. -/
def axisGet : Axis → Point → ℚ
  | .x, p => p.x
  | .y, p => p.y
  | .z, p => p.z

/-- Replace one axis of a point. -/
def axisSet : Axis → ℚ → Point → Point
  | .x, c, p => ⟨c, p.y, p.z⟩
  | .y, c, p => ⟨p.x, c, p.z⟩
  | .z, c, p => ⟨p.x, p.y, c⟩

/-- Minimum of a coordinate list (0 for the empty list, which the claims
never reach). -/
def listMin : List ℚ → ℚ
  | [] => 0
  | c :: cs => cs.foldl min c

/-- Maximum of a coordinate list (0 for the empty list). -/
def listMax : List ℚ → ℚ
  | [] => 0
  | c :: cs => cs.foldl max c

/-- The coordinates on axis `a` of the mesh nodes whose id lies in `ids`,
in node order. -/
def scopedCoords (m : Mesh) (ids : List Nat) (a : Axis) : List ℚ :=
  (m.nodes.filter fun n => decide (n.1 ∈ ids)).map fun n => axisGet a n.2

/-- The stretch result record returned to callers. -/
structure StretchSummary where
  node_count : Nat
  original_lengths : ℚ × ℚ × ℚ
  new_lengths : ℚ × ℚ × ℚ
  entity_set : Option String
deriving DecidableEq

/-- Modelled from the spec: one per-axis step of the Axis Stretcher
(§4.4; `mesh_converter/converter.py` is not under src/).  Compute min and
max of the scoped coordinates; if the extension is zero leave the axis
untouched with `new_length = original_length`; otherwise scale each scoped
node's coordinate by `min + (coordinate - min) * (L + d) / L` and recompute
the scoped extent.  Returns (mesh, original_length, new_length). -/
def stretchAxis (a : Axis) (d : ℚ) (ids : List Nat) (m : Mesh) : Mesh × ℚ × ℚ :=
  let coords := scopedCoords m ids a
  let lo := listMin coords
  let hi := listMax coords
  let len := hi - lo
  if d = 0 then
    (m, len, len)
  else
    let scale := (len + d) / len
    let m' : Mesh :=
      { m with nodes := m.nodes.map fun n =>
          if n.1 ∈ ids then (n.1, axisSet a (lo + (axisGet a n.2 - lo) * scale) n.2) else n }
    let coords' := scopedCoords m' ids a
    (m', len, listMax coords' - listMin coords')

/-- The member list of the named entity set, if defined in the mesh. -/
def setMembers (m : Mesh) (name : String) : Option (List Nat) :=
  (m.sets.find? fun s => decide (s.1 = name)).map Prod.snd

/-- Modelled from the spec: resolve the stretch scope (§4.4) — either all
node ids or the member list of a named set already present in the Mesh; an
unknown name fails with InpParseError. -/
def scopedIds (m : Mesh) (scope : Option String) : Except ConvError (List Nat) :=
  match scope with
  | none => .ok (nodeIdsOf m.nodes)
  | some name =>
    match setMembers m name with
    | some ids => .ok ids
    | none => .error (.inpError ("Unknown entity set: " ++ name))

/-- Modelled from the spec: the Axis Stretcher (§4.4;
`mesh_converter/converter.py` is not under src/).  Resolves the scope,
applies the per-axis transform independently on X, Y, Z, and returns the
stretched mesh with its StretchSummary.  Mutation-in-place in the source
is modelled by returning the new mesh. -/
def stretch (m : Mesh) (dx dy dz : ℚ) (scope : Option String) :
    Except ConvError (Mesh × StretchSummary) :=
  match scopedIds m scope with
  | .error e => .error e
  | .ok ids =>
    let r1 := stretchAxis .x dx ids m
    let r2 := stretchAxis .y dy ids r1.1
    let r3 := stretchAxis .z dz ids r2.1
    .ok (r3.1,
      { node_count := (r3.1.nodes.filter fun n => decide (n.1 ∈ ids)).length
        original_lengths := (r1.2.1, r2.2.1, r3.2.1)
        new_lengths := (r1.2.2, r2.2.2, r3.2.2)
        entity_set := scope })

/-- A zero-extension axis step returns the mesh unchanged, with
new_length equal to original_length. -/
lemma stretchAxis_zero (a : Axis) (ids : List Nat) (m : Mesh) :
    stretchAxis a 0 ids m =
      (m, listMax (scopedCoords m ids a) - listMin (scopedCoords m ids a),
          listMax (scopedCoords m ids a) - listMin (scopedCoords m ids a)) := by
  unfold stretchAxis
  simp

/-- An axis step never moves a node whose id is outside the scope list,
and keeps every node's position in the node sequence. -/
lemma stretchAxis_outside (a : Axis) (d : ℚ) (ids : List Nat) (m : Mesh)
    (k i : Nat) (p : Point)
    (hget : m.nodes[k]? = some (i, p)) (hout : i ∉ ids) :
    (stretchAxis a d ids m).1.nodes[k]? = some (i, p) := by
  unfold stretchAxis
  by_cases hd : d = 0
  · simp [hd, hget]
  · simp only [if_neg hd]
    rw [List.getElem?_map, hget]
    simp [hout]

/-- Claim C8: stretching with a scope name that is not a defined set fails
with InpParseError; no stretched mesh is produced (the in-place mutation of
the source never happens, since the scope is resolved first). -/
theorem stretch_unknown_set_error (m : Mesh) (dx dy dz : ℚ) (name : String)
    (h : ∀ s ∈ m.sets, s.1 ≠ name) :
    stretch m dx dy dz (some name) =
      .error (.inpError ("Unknown entity set: " ++ name)) := by
  have hfind : m.sets.find? (fun s => decide (s.1 = name)) = none := by
    rw [List.find?_eq_none]
    intro s hs
    simpa using h s hs
  simp [stretch, scopedIds, setMembers, hfind]

/-- Witness for C8: a mesh whose only set is "TOP", stretched with scope
name "BOTTOM". -/
theorem stretch_unknown_set_error_witness :
    stretch ⟨[(1, ⟨0, 0, 0⟩)], [], [("TOP", [1])]⟩ 1 0 0 (some "BOTTOM") =
      .error (.inpError ("Unknown entity set: " ++ "BOTTOM")) :=
  stretch_unknown_set_error ⟨[(1, ⟨0, 0, 0⟩)], [], [("TOP", [1])]⟩ 1 0 0 "BOTTOM"
    (by decide)

/-- Claim C6: a stretch with all three extensions zero returns the mesh
unchanged (every coordinate identical) and new_lengths equal to
original_lengths on every axis. -/
theorem zero_extension_noop (m : Mesh) (scope : Option String)
    (m' : Mesh) (s : StretchSummary)
    (h : stretch m 0 0 0 scope = .ok (m', s)) :
    m' = m ∧ s.new_lengths = s.original_lengths := by
  unfold stretch at h
  cases hsc : scopedIds m scope with
  | error e => rw [hsc] at h; exact absurd h (by simp)
  | ok ids =>
    rw [hsc] at h
    simp only [stretchAxis_zero, Except.ok.injEq, Prod.mk.injEq] at h
    obtain ⟨hm, hs⟩ := h
    exact ⟨hm.symm, by rw [← hs]⟩

/-- Witness for C6 on a two-node mesh with a named-set scope. -/
theorem zero_extension_noop_witness :
    (⟨[(1, ⟨0, 0, 0⟩), (2, ⟨3, 4, 5⟩)], [], [("TOP", [2])]⟩ : Mesh) =
        ⟨[(1, ⟨0, 0, 0⟩), (2, ⟨3, 4, 5⟩)], [], [("TOP", [2])]⟩
      ∧ (⟨1, (0, 0, 0), (0, 0, 0), some "TOP"⟩ : StretchSummary).new_lengths =
        (⟨1, (0, 0, 0), (0, 0, 0), some "TOP"⟩ : StretchSummary).original_lengths :=
  zero_extension_noop ⟨[(1, ⟨0, 0, 0⟩), (2, ⟨3, 4, 5⟩)], [], [("TOP", [2])]⟩ (some "TOP")
    ⟨[(1, ⟨0, 0, 0⟩), (2, ⟨3, 4, 5⟩)], [], [("TOP", [2])]⟩
    ⟨1, (0, 0, 0), (0, 0, 0), some "TOP"⟩
    (by norm_num [stretch, scopedIds, setMembers, stretchAxis, scopedCoords, listMin, listMax,
      nodeIdsOf, axisGet, axisSet])

/-- Claim C5: after a stretch scoped to a named entity set, every node
whose id is not a member of that set keeps its exact position in the node
sequence and its exact coordinates on all three axes. -/
theorem scoped_stretch_outside_untouched (m : Mesh) (dx dy dz : ℚ)
    (name : String) (ids : List Nat) (m' : Mesh) (s : StretchSummary)
    (k i : Nat) (p : Point)
    (hids : setMembers m name = some ids)
    (hok : stretch m dx dy dz (some name) = .ok (m', s))
    (hget : m.nodes[k]? = some (i, p))
    (hout : i ∉ ids) :
    m'.nodes[k]? = some (i, p) := by
  have hsc : scopedIds m (some name) = .ok ids := by
    simp [scopedIds, hids]
  unfold stretch at hok
  rw [hsc] at hok
  simp only [Except.ok.injEq, Prod.mk.injEq] at hok
  rw [← hok.1]
  exact stretchAxis_outside _ _ _ _ _ _ _
    (stretchAxis_outside _ _ _ _ _ _ _
      (stretchAxis_outside _ _ _ _ _ _ _ hget hout) hout) hout

/-- Witness for C5: stretching set "TOP" = ⟨nodes 2, 3⟩ of a three-node
mesh by one X unit moves node 3 but leaves node 1 exactly in place. -/
theorem scoped_stretch_outside_untouched_witness :
    (⟨[(1, ⟨0, 0, 0⟩), (2, ⟨1, 0, 0⟩), (3, ⟨3, 0, 0⟩)], [], [("TOP", [2, 3])]⟩ : Mesh).nodes[0]?
      = some (1, ⟨0, 0, 0⟩) :=
  scoped_stretch_outside_untouched
    ⟨[(1, ⟨0, 0, 0⟩), (2, ⟨1, 0, 0⟩), (3, ⟨2, 0, 0⟩)], [], [("TOP", [2, 3])]⟩
    1 0 0 "TOP" [2, 3]
    ⟨[(1, ⟨0, 0, 0⟩), (2, ⟨1, 0, 0⟩), (3, ⟨3, 0, 0⟩)], [], [("TOP", [2, 3])]⟩
    ⟨2, (1, 0, 0), (2, 0, 0), some "TOP"⟩
    0 1 ⟨0, 0, 0⟩ (by norm_num [setMembers])
    (by norm_num [stretch, scopedIds, setMembers, stretchAxis, scopedCoords, listMin, listMax,
      nodeIdsOf, axisGet, axisSet])
    (by norm_num) (by decide)

/-- Minimum X coordinate over all nodes of a mesh. -/
def meshMinX (m : Mesh) : ℚ :=
  listMin (m.nodes.map fun n => n.2.x)

/-- Maximum X coordinate over all nodes of a mesh. -/
def meshMaxX (m : Mesh) : ℚ :=
  listMax (m.nodes.map fun n => n.2.x)

/-- A monotone map commutes with a min-fold. -/
lemma foldl_min_map (g : ℚ → ℚ) (hg : Monotone g) :
    ∀ (cs : List ℚ) (c : ℚ), (cs.map g).foldl min (g c) = g (cs.foldl min c) := by
  intro cs
  induction cs with
  | nil => intro c; rfl
  | cons y ys ih =>
    intro c
    simp only [List.map_cons, List.foldl_cons]
    rw [← hg.map_min]
    exact ih (min c y)

/-- A monotone map commutes with a max-fold. -/
lemma foldl_max_map (g : ℚ → ℚ) (hg : Monotone g) :
    ∀ (cs : List ℚ) (c : ℚ), (cs.map g).foldl max (g c) = g (cs.foldl max c) := by
  intro cs
  induction cs with
  | nil => intro c; rfl
  | cons y ys ih =>
    intro c
    simp only [List.map_cons, List.foldl_cons]
    rw [← hg.map_max]
    exact ih (max c y)

/-- A monotone map commutes with `listMin` on nonempty lists. -/
lemma listMin_map (g : ℚ → ℚ) (hg : Monotone g) (l : List ℚ) (hl : l ≠ []) :
    listMin (l.map g) = g (listMin l) := by
  cases l with
  | nil => exact absurd rfl hl
  | cons c cs =>
    simp only [List.map_cons, listMin]
    exact foldl_min_map g hg cs c

/-- A monotone map commutes with `listMax` on nonempty lists. -/
lemma listMax_map (g : ℚ → ℚ) (hg : Monotone g) (l : List ℚ) (hl : l ≠ []) :
    listMax (l.map g) = g (listMax l) := by
  cases l with
  | nil => exact absurd rfl hl
  | cons c cs =>
    simp only [List.map_cons, listMax]
    exact foldl_max_map g hg cs c

/-- With scope = all node ids, the scoped coordinate list is just the
coordinate list of every node. -/
lemma scopedCoords_all (m : Mesh) (a : Axis) :
    scopedCoords m (nodeIdsOf m.nodes) a = m.nodes.map fun n => axisGet a n.2 := by
  unfold scopedCoords
  congr 1
  apply List.filter_eq_self.mpr
  intro n hn
  simp only [decide_eq_true_eq]
  exact List.mem_map_of_mem Prod.fst hn

/-- The X axis step over the full scope anchors the minimum and moves the
maximum by the extension, provided the span is positive and the extension
does not shrink the span below zero. -/
lemma stretchAxis_x_all (m : Mesh) (d : ℚ) (hne : m.nodes ≠ [])
    (hL : 0 < meshMaxX m - meshMinX m)
    (hd : 0 ≤ meshMaxX m - meshMinX m + d) :
    meshMinX (stretchAxis .x d (nodeIdsOf m.nodes) m).1 = meshMinX m
      ∧ meshMaxX (stretchAxis .x d (nodeIdsOf m.nodes) m).1 = meshMaxX m + d := by
  by_cases hd0 : d = 0
  · subst hd0
    rw [stretchAxis_zero]
    exact ⟨rfl, by ring⟩
  · have hxs_ne : m.nodes.map (fun n => n.2.x) ≠ [] := by
      simpa using hne
    have hcoords : scopedCoords m (nodeIdsOf m.nodes) .x = m.nodes.map fun n => n.2.x := by
      rw [scopedCoords_all]
      rfl
    set xs := m.nodes.map (fun n => n.2.x) with hxs
    set lo := listMin xs with hlo
    set hi := listMax xs with hhi
    have hLdef : meshMaxX m - meshMinX m = hi - lo := rfl
    rw [hLdef] at hL hd
    set scale := (hi - lo + d) / (hi - lo) with hscale
    have hscale_nonneg : 0 ≤ scale := div_nonneg hd hL.le
    set g : ℚ → ℚ := fun c => lo + (c - lo) * scale with hg
    have hgmono : Monotone g := by
      intro a b hab
      simp only [hg]
      have := mul_le_mul_of_nonneg_right (sub_le_sub_right hab lo) hscale_nonneg
      linarith
    have hnodes :
        (stretchAxis .x d (nodeIdsOf m.nodes) m).1.nodes.map (fun n => n.2.x) = xs.map g := by
      unfold stretchAxis
      rw [if_neg hd0]
      simp only [hcoords]
      rw [hxs, List.map_map, List.map_map]
      apply List.map_congr_left
      intro n hn
      have hmem : n.1 ∈ nodeIdsOf m.nodes := List.mem_map_of_mem Prod.fst hn
      simp only [Function.comp_apply, if_pos hmem, hg]
      rfl
    have hmin :
        meshMinX (stretchAxis .x d (nodeIdsOf m.nodes) m).1 = g lo := by
      unfold meshMinX
      rw [hnodes, listMin_map g hgmono xs hxs_ne]
    have hmax :
        meshMaxX (stretchAxis .x d (nodeIdsOf m.nodes) m).1 = g hi := by
      unfold meshMaxX
      rw [hnodes, listMax_map g hgmono xs hxs_ne]
    have hglo : g lo = lo := by
      simp [hg]
    have hghi : g hi = hi + d := by
      simp only [hg, hscale]
      rw [mul_div_assoc']
      rw [mul_comm, mul_div_assoc, div_self (ne_of_gt hL), mul_one]
      ring
    constructor
    · rw [hmin, hglo]
      rfl
    · rw [hmax, hghi]
      rfl

/-- Claim C1 (amended): stretching all nodes along X by `d`, when the
original span `L = max_x - min_x` is positive and `L + d ≥ 0`, yields a
mesh whose X span is exactly `L + d` with `min_x` unchanged. -/
theorem stretch_allnodes_x_extends_length (m : Mesh) (d : ℚ)
    (m' : Mesh) (s : StretchSummary)
    (hne : m.nodes ≠ [])
    (hL : 0 < meshMaxX m - meshMinX m)
    (hd : 0 ≤ meshMaxX m - meshMinX m + d)
    (hok : stretch m d 0 0 none = .ok (m', s)) :
    meshMaxX m' - meshMinX m' = meshMaxX m - meshMinX m + d
      ∧ meshMinX m' = meshMinX m := by
  unfold stretch at hok
  have hsc : scopedIds m none = .ok (nodeIdsOf m.nodes) := rfl
  rw [hsc] at hok
  simp only [stretchAxis_zero, Except.ok.injEq, Prod.mk.injEq] at hok
  obtain ⟨hm', -⟩ := hok
  have h := stretchAxis_x_all m d hne hL hd
  rw [← hm']
  rw [h.1, h.2]
  exact ⟨by ring, rfl⟩

/-- Witness for C1 (amended): the spec's own end-to-end example — nodes at
x = 0 and x = 2 stretched by extend_x = 2 give span 4 with node 2 at
x = 4. -/
theorem stretch_allnodes_x_extends_length_witness :
    meshMaxX ⟨[(1, ⟨0, 0, 0⟩), (2, ⟨4, 0, 0⟩)], [], []⟩
        - meshMinX ⟨[(1, ⟨0, 0, 0⟩), (2, ⟨4, 0, 0⟩)], [], []⟩
      = meshMaxX ⟨[(1, ⟨0, 0, 0⟩), (2, ⟨2, 0, 0⟩)], [], []⟩
        - meshMinX ⟨[(1, ⟨0, 0, 0⟩), (2, ⟨2, 0, 0⟩)], [], []⟩ + 2
      ∧ meshMinX ⟨[(1, ⟨0, 0, 0⟩), (2, ⟨4, 0, 0⟩)], [], []⟩
        = meshMinX ⟨[(1, ⟨0, 0, 0⟩), (2, ⟨2, 0, 0⟩)], [], []⟩ :=
  stretch_allnodes_x_extends_length ⟨[(1, ⟨0, 0, 0⟩), (2, ⟨2, 0, 0⟩)], [], []⟩ 2
    ⟨[(1, ⟨0, 0, 0⟩), (2, ⟨4, 0, 0⟩)], [], []⟩ ⟨2, (2, 0, 0), (4, 0, 0), none⟩
    (by simp)
    (by norm_num [meshMaxX, meshMinX, listMin, listMax])
    (by norm_num [meshMaxX, meshMinX, listMin, listMax])
    (by norm_num [stretch, scopedIds, setMembers, stretchAxis, scopedCoords, listMin, listMax,
      nodeIdsOf, axisGet, axisSet])

/-- Counterexample to claim C1 as stated: with nodes at x = 0 and x = 1
(span L = 1) and extension d = -3, the stretched span is 2, not
L + d = -2, and min_x moves from 0 to -2 — the claim fails when the
extension shrinks the span below zero. -/
theorem stretch_x_neg_extension_cex :
    0 < meshMaxX ⟨[(1, ⟨0, 0, 0⟩), (2, ⟨1, 0, 0⟩)], [], []⟩
        - meshMinX ⟨[(1, ⟨0, 0, 0⟩), (2, ⟨1, 0, 0⟩)], [], []⟩
      ∧ stretch ⟨[(1, ⟨0, 0, 0⟩), (2, ⟨1, 0, 0⟩)], [], []⟩ (-3) 0 0 none
        = .ok (⟨[(1, ⟨0, 0, 0⟩), (2, ⟨-2, 0, 0⟩)], [], []⟩, ⟨2, (1, 0, 0), (2, 0, 0), none⟩)
      ∧ ¬ (meshMaxX ⟨[(1, ⟨0, 0, 0⟩), (2, ⟨-2, 0, 0⟩)], [], []⟩
            - meshMinX ⟨[(1, ⟨0, 0, 0⟩), (2, ⟨-2, 0, 0⟩)], [], []⟩
          = meshMaxX ⟨[(1, ⟨0, 0, 0⟩), (2, ⟨1, 0, 0⟩)], [], []⟩
            - meshMinX ⟨[(1, ⟨0, 0, 0⟩), (2, ⟨1, 0, 0⟩)], [], []⟩ + (-3)
          ∧ meshMinX ⟨[(1, ⟨0, 0, 0⟩), (2, ⟨-2, 0, 0⟩)], [], []⟩
            = meshMinX ⟨[(1, ⟨0, 0, 0⟩), (2, ⟨1, 0, 0⟩)], [], []⟩) := by
  refine ⟨by norm_num [meshMaxX, meshMinX, listMin, listMax], ?_, ?_⟩
  · norm_num [stretch, scopedIds, setMembers, stretchAxis, scopedCoords, listMin, listMax,
      nodeIdsOf, axisGet, axisSet]
  · rintro ⟨hA, -⟩
    norm_num [meshMaxX, meshMinX, listMin, listMax] at hA

/-! ## Inp Reader and Writer -/

/-- Set members in an INP set block: an explicit id list or a generated
(start, stop, step) range. -/
inductive SetMembers where
  | explicitList (ids : List Nat)
  | generateRange (first last stride : Nat)
deriving DecidableEq

/-- One keyword block of an INP file, in source order. -/
inductive InpBlock where
  | nodeBlock (rows : List (Nat × ℚ × ℚ × ℚ))
  | elementBlock (etype : String) (rows : List (Nat × List Nat))
  | setBlock (name : String) (members : SetMembers)
  | unrecognized
deriving DecidableEq

/-- Modelled from the spec: eager expansion of a generated set range into
an explicit ordered sequence (§4.2 Inp Reader;
`mesh_converter/converter.py` is not under src/). -/
def expandMembers : SetMembers → List Nat
  | .explicitList ids => ids
  | .generateRange first last stride =>
      (List.range ((last - first) / stride + 1)).map fun i => first + i * stride

/-- Modelled from the spec: insert the data lines of a node block (§4.2) —
each line contributes one Node with its explicit id; a duplicate explicit
id fails with InpParseError. -/
def insertNodes (rows : List (Nat × ℚ × ℚ × ℚ)) (m : Mesh) : Except ConvError Mesh :=
  match rows with
  | [] => .ok m
  | (i, cx, cy, cz) :: rest =>
    if i ∈ nodeIdsOf m.nodes then .error (.inpError "duplicate node id")
    else insertNodes rest { m with nodes := m.nodes ++ [(i, ⟨cx, cy, cz⟩)] }

/-- Modelled from the spec: insert the data lines of an element block
(§4.2) — the element-type tag comes from the block header, the explicit
element id is ignored, and a reference to an undefined node id fails
with InpParseError. -/
def insertElems (t : String) (rows : List (Nat × List Nat)) (m : Mesh) :
    Except ConvError Mesh :=
  match rows with
  | [] => .ok m
  | (_, ids) :: rest =>
    if ∀ i ∈ ids, i ∈ nodeIdsOf m.nodes then
      insertElems t rest { m with elements := m.elements ++ [⟨t, ids⟩] }
    else .error (.inpError "element references undefined node id")

/-- Modelled from the spec: insert a named set block (§4.2) — members are
expanded eagerly; a reference to an undefined node id fails with
InpParseError. -/
def insertSetBlock (name : String) (mem : SetMembers) (m : Mesh) :
    Except ConvError Mesh :=
  if ∀ i ∈ expandMembers mem, i ∈ nodeIdsOf m.nodes then
    .ok { m with sets := m.sets ++ [(name, expandMembers mem)] }
  else .error (.inpError "set references undefined node id")

/-- Modelled from the spec: process the blocks strictly in source order
(§4.2); unrecognized keywords are ignored without corrupting recognized
blocks. -/
def readBlocks : List InpBlock → Mesh → Except ConvError Mesh
  | [], m => .ok m
  | .nodeBlock rows :: rest, m =>
    match insertNodes rows m with
    | .error e => .error e
    | .ok m' => readBlocks rest m'
  | .elementBlock t rows :: rest, m =>
    match insertElems t rows m with
    | .error e => .error e
    | .ok m' => readBlocks rest m'
  | .setBlock name mem :: rest, m =>
    match insertSetBlock name mem m with
    | .error e => .error e
    | .ok m' => readBlocks rest m'
  | .unrecognized :: rest, m => readBlocks rest m

/-- Modelled from the spec: the Inp Reader (§4.2) — parse the keyword
blocks into a Mesh; a file with no nodes fails with InpParseError
("no nodes found"). -/
def readInp (blocks : List InpBlock) : Except ConvError Mesh :=
  match readBlocks blocks ⟨[], [], []⟩ with
  | .error e => .error e
  | .ok m => if m.nodes.isEmpty then .error (.inpError "no nodes found") else .ok m

/-- Writer element blocks with sequential element ids starting at `k`. -/
def elementBlocksFrom (k : Nat) : List Element → List InpBlock
  | [] => []
  | e :: es => .elementBlock e.etype [(k, e.nodeIds)] :: elementBlocksFrom (k + 1) es

/-- Modelled from the spec: the Inp Writer (§4.3) — serialize the mesh as
one node block holding every node in order at full precision, one element
block per element (sequential element ids, which the reader ignores), and
one explicit-list set block per set. -/
def writeInp (m : Mesh) : List InpBlock :=
  .nodeBlock (m.nodes.map fun n => (n.1, n.2.x, n.2.y, n.2.z))
    :: elementBlocksFrom 1 m.elements
    ++ m.sets.map fun s => .setBlock s.1 (.explicitList s.2)

/-- Reference well-formedness: every element and set references only node
ids present in the mesh. -/
def refsOk (m : Mesh) : Prop :=
  (∀ e ∈ m.elements, ∀ i ∈ e.nodeIds, i ∈ nodeIdsOf m.nodes)
    ∧ ∀ s ∈ m.sets, ∀ i ∈ s.2, i ∈ nodeIdsOf m.nodes

/-- The invariant every reader-produced mesh satisfies: distinct node ids
and valid references. -/
def readerWF (m : Mesh) : Prop :=
  (nodeIdsOf m.nodes).Nodup ∧ refsOk m

/-- Inserting node rows extends the node-id list, preserves distinctness,
and leaves elements and sets alone. -/
lemma insertNodes_invariant (rows : List (Nat × ℚ × ℚ × ℚ)) :
    ∀ m m2 : Mesh, insertNodes rows m = .ok m2 →
      m2.elements = m.elements ∧ m2.sets = m.sets
        ∧ (∀ i ∈ nodeIdsOf m.nodes, i ∈ nodeIdsOf m2.nodes)
        ∧ ((nodeIdsOf m.nodes).Nodup → (nodeIdsOf m2.nodes).Nodup) := by
  induction rows with
  | nil =>
    intro m m2 h
    simp only [insertNodes, Except.ok.injEq] at h
    subst h
    exact ⟨rfl, rfl, fun i hi => hi, id⟩
  | cons r rest ih =>
    intro m m2 h
    obtain ⟨i, cx, cy, cz⟩ := r
    simp only [insertNodes] at h
    split at h
    · exact absurd h (by simp)
    · rename_i hnew
      obtain ⟨he, hs, hgrow, hnd⟩ :=
        ih { m with nodes := m.nodes ++ [(i, ⟨cx, cy, cz⟩)] } m2 h
      refine ⟨he, hs, ?_, ?_⟩
      · intro j hj
        exact hgrow j (by simp [nodeIdsOf] at hj ⊢; exact Or.inl hj)
      · intro hmnd
        apply hnd
        simp only [nodeIdsOf, List.map_append] at hmnd ⊢
        simp only [List.nodup_append]
        refine ⟨hmnd, by simp, ?_⟩
        intro a ha hai
        simp only [List.map_cons, List.map_nil, List.mem_singleton] at hai
        subst hai
        exact hnew ha

/-- Inserting element rows leaves nodes and sets alone and preserves the
reader invariant. -/
lemma insertElems_wf (t : String) (rows : List (Nat × List Nat)) :
    ∀ m m2 : Mesh, insertElems t rows m = .ok m2 →
      m2.nodes = m.nodes ∧ m2.sets = m.sets ∧ (readerWF m → readerWF m2) := by
  induction rows with
  | nil =>
    intro m m2 h
    simp only [insertElems, Except.ok.injEq] at h
    subst h
    exact ⟨rfl, rfl, id⟩
  | cons r rest ih =>
    intro m m2 h
    obtain ⟨rid, ids⟩ := r
    simp only [insertElems] at h
    split at h
    · rename_i hok
      obtain ⟨hn, hs, hwf⟩ :=
        ih { m with elements := m.elements ++ [⟨t, ids⟩] } m2 h
      refine ⟨hn, hs, fun hm => hwf ?_⟩
      obtain ⟨hnd, hel, hsets⟩ := hm
      refine ⟨hnd, ?_, hsets⟩
      intro e he
      rcases List.mem_append.mp he with he | he
      · exact hel e he
      · simp only [List.mem_singleton] at he
        subst he
        exact hok
    · exact absurd h (by simp)

/-- Inserting a set block leaves nodes and elements alone and preserves
the reader invariant. -/
lemma insertSetBlock_wf (name : String) (mem : SetMembers) (m m2 : Mesh)
    (h : insertSetBlock name mem m = .ok m2) :
    m2.nodes = m.nodes ∧ m2.elements = m.elements ∧ (readerWF m → readerWF m2) := by
  simp only [insertSetBlock] at h
  split at h
  · rename_i hok
    simp only [Except.ok.injEq] at h
    subst h
    refine ⟨rfl, rfl, fun hm => ?_⟩
    obtain ⟨hnd, hel, hsets⟩ := hm
    refine ⟨hnd, hel, ?_⟩
    intro s hs
    rcases List.mem_append.mp hs with hs | hs
    · exact hsets s hs
    · simp only [List.mem_singleton] at hs
      subst hs
      exact hok
  · exact absurd h (by simp)

/-- A mesh with more nodes but the same elements and sets keeps valid
references. -/
lemma refsOk_grow (m m2 : Mesh)
    (he : m2.elements = m.elements) (hs : m2.sets = m.sets)
    (hgrow : ∀ i ∈ nodeIdsOf m.nodes, i ∈ nodeIdsOf m2.nodes)
    (h : refsOk m) : refsOk m2 := by
  obtain ⟨hel, hsets⟩ := h
  constructor
  · intro e hee i hi
    exact hgrow i (hel e (he ▸ hee) i hi)
  · intro s hss i hi
    exact hgrow i (hsets s (hs ▸ hss) i hi)

/-- Processing blocks preserves the reader invariant. -/
lemma readBlocks_wf (blocks : List InpBlock) :
    ∀ m m2 : Mesh, readBlocks blocks m = .ok m2 → readerWF m → readerWF m2 := by
  induction blocks with
  | nil =>
    intro m m2 h
    simp only [readBlocks, Except.ok.injEq] at h
    subst h
    exact id
  | cons b rest ih =>
    intro m m2 h hm
    cases b with
    | nodeBlock rows =>
      simp only [readBlocks] at h
      cases hins : insertNodes rows m with
      | error e => rw [hins] at h; exact absurd h (by simp)
      | ok m' =>
        rw [hins] at h
        obtain ⟨he, hs, hgrow, hnd⟩ := insertNodes_invariant rows m m' hins
        exact ih m' m2 h ⟨hnd hm.1, refsOk_grow m m' he hs hgrow hm.2⟩
    | elementBlock t rows =>
      simp only [readBlocks] at h
      cases hins : insertElems t rows m with
      | error e => rw [hins] at h; exact absurd h (by simp)
      | ok m' =>
        rw [hins] at h
        exact ih m' m2 h ((insertElems_wf t rows m m' hins).2.2 hm)
    | setBlock name mem =>
      simp only [readBlocks] at h
      cases hins : insertSetBlock name mem m with
      | error e => rw [hins] at h; exact absurd h (by simp)
      | ok m' =>
        rw [hins] at h
        exact ih m' m2 h ((insertSetBlock_wf name mem m m' hins).2.2 hm)
    | unrecognized =>
      simp only [readBlocks] at h
      exact ih m m2 h hm

/-- Every mesh the Inp Reader returns satisfies the reader invariant and
has at least one node. -/
lemma readInp_wf (blocks : List InpBlock) (m : Mesh)
    (h : readInp blocks = .ok m) : readerWF m ∧ m.nodes ≠ [] := by
  unfold readInp at h
  cases hrb : readBlocks blocks ⟨[], [], []⟩ with
  | error e => rw [hrb] at h; exact absurd h (by simp)
  | ok m' =>
    rw [hrb] at h
    have h2 : (if m'.nodes.isEmpty then
          (.error (.inpError "no nodes found") : Except ConvError Mesh)
        else .ok m') = .ok m := h
    split at h2
    · exact absurd h2 (by simp)
    · rename_i hne
      simp only [Except.ok.injEq] at h2
      subst h2
      refine ⟨readBlocks_wf blocks ⟨[], [], []⟩ m' hrb ?_, ?_⟩
      · exact ⟨by simp [nodeIdsOf], by simp [refsOk], by simp [refsOk]⟩
      · intro hmn
        exact hne (by simp [hmn])

/-- Re-reading the node rows the writer emits, over an accumulator with no
clashing ids, appends exactly the original nodes. -/
lemma insertNodes_writer (ns : List (Nat × Point)) :
    ∀ acc : Mesh,
      (∀ n ∈ ns, n.1 ∉ nodeIdsOf acc.nodes) → (nodeIdsOf ns).Nodup →
      insertNodes (ns.map fun n => (n.1, n.2.x, n.2.y, n.2.z)) acc
        = .ok { acc with nodes := acc.nodes ++ ns } := by
  induction ns with
  | nil =>
    intro acc _ _
    simp [insertNodes]
  | cons n ns ih =>
    intro acc hfresh hnd
    obtain ⟨i, p⟩ := n
    have hndtl : i ∉ nodeIdsOf ns ∧ (nodeIdsOf ns).Nodup :=
      List.nodup_cons.mp (by simpa [nodeIdsOf] using hnd)
    simp only [List.map_cons, insertNodes]
    rw [if_neg (hfresh (i, p) (by simp))]
    have hp : ({ x := p.x, y := p.y, z := p.z } : Point) = p := rfl
    rw [hp]
    have hfresh' : ∀ n' ∈ ns,
        n'.1 ∉ nodeIdsOf ({ acc with nodes := acc.nodes ++ [(i, p)] } : Mesh).nodes := by
      intro n' hn'
      simp only [nodeIdsOf, List.map_append, List.mem_append]
      rintro (hin | hin)
      · exact hfresh n' (by simp [hn']) hin
      · simp only [List.map_cons, List.map_nil, List.mem_singleton] at hin
        exact hndtl.1 (hin ▸ List.mem_map_of_mem Prod.fst hn')
    rw [ih { acc with nodes := acc.nodes ++ [(i, p)] } hfresh' hndtl.2]
    rw [List.append_assoc, List.singleton_append]

/-- Reading a node block is one accumulator step of `readBlocks`. -/
lemma readBlocks_nodeBlock_cons (rows : List (Nat × ℚ × ℚ × ℚ))
    (rest : List InpBlock) (acc m' : Mesh) (h : insertNodes rows acc = .ok m') :
    readBlocks (.nodeBlock rows :: rest) acc = readBlocks rest m' := by
  simp only [readBlocks, h]

/-- Re-reading the per-element blocks the writer emits appends exactly the
original elements, for any starting element id. -/
lemma readBlocks_elementBlocks (es : List Element) :
    ∀ (k : Nat) (acc : Mesh) (rest : List InpBlock),
      (∀ e ∈ es, ∀ i ∈ e.nodeIds, i ∈ nodeIdsOf acc.nodes) →
      readBlocks (elementBlocksFrom k es ++ rest) acc
        = readBlocks rest { acc with elements := acc.elements ++ es } := by
  induction es with
  | nil =>
    intro k acc rest _
    simp [elementBlocksFrom]
  | cons e es ih =>
    intro k acc rest h
    simp only [elementBlocksFrom, List.cons_append]
    have hins : insertElems e.etype [(k, e.nodeIds)] acc
        = .ok { acc with elements := acc.elements ++ [⟨e.etype, e.nodeIds⟩] } := by
      simp only [insertElems]
      rw [if_pos (h e (by simp))]
    have he : (⟨e.etype, e.nodeIds⟩ : Element) = e := rfl
    rw [he] at hins
    simp only [readBlocks, hins]
    rw [ih (k + 1) { acc with elements := acc.elements ++ [e] } rest
      (fun e' he' => h e' (by simp [he']))]
    rw [List.append_assoc, List.singleton_append]

/-- Re-reading the explicit-list set blocks the writer emits appends
exactly the original sets. -/
lemma readBlocks_setBlocks (ss : List (String × List Nat)) :
    ∀ acc : Mesh,
      (∀ s ∈ ss, ∀ i ∈ s.2, i ∈ nodeIdsOf acc.nodes) →
      readBlocks (ss.map fun s => .setBlock s.1 (.explicitList s.2)) acc
        = .ok { acc with sets := acc.sets ++ ss } := by
  induction ss with
  | nil =>
    intro acc _
    simp [readBlocks]
  | cons s ss ih =>
    intro acc h
    simp only [List.map_cons]
    have hins : insertSetBlock s.1 (.explicitList s.2) acc
        = .ok { acc with sets := acc.sets ++ [(s.1, s.2)] } := by
      simp only [insertSetBlock, expandMembers]
      rw [if_pos (h s (by simp))]
    have hpair : (s.1, s.2) = s := rfl
    rw [hpair] at hins
    simp only [readBlocks, hins]
    rw [ih { acc with sets := acc.sets ++ [s] } (fun s' hs' => h s' (by simp [hs']))]
    rw [List.append_assoc, List.singleton_append]

/-- Claim C2: for every Mesh produced by the Inp Reader, writing it and
re-reading the result yields an equal Mesh — same node ids, same
coordinates, same element connectivity and order, and same set membership
and order. -/
theorem inp_read_write_round_trip (blocks : List InpBlock) (m : Mesh)
    (h : readInp blocks = .ok m) : readInp (writeInp m) = .ok m := by
  obtain ⟨⟨hnd, hel, hsets⟩, hne⟩ := readInp_wf blocks m h
  have h1 : insertNodes (m.nodes.map fun n => (n.1, n.2.x, n.2.y, n.2.z)) ⟨[], [], []⟩
      = .ok ⟨m.nodes, [], []⟩ := by
    have hw := insertNodes_writer m.nodes ⟨[], [], []⟩ (by simp [nodeIdsOf]) hnd
    simpa using hw
  have hfull : readBlocks (writeInp m) ⟨[], [], []⟩ = .ok m := by
    unfold writeInp
    rw [List.cons_append]
    rw [readBlocks_nodeBlock_cons _ _ _ _ h1]
    rw [readBlocks_elementBlocks m.elements 1 ⟨m.nodes, [], []⟩ _ hel]
    show readBlocks (m.sets.map fun s => InpBlock.setBlock s.1 (.explicitList s.2))
        ⟨m.nodes, m.elements, []⟩ = .ok m
    rw [readBlocks_setBlocks m.sets ⟨m.nodes, m.elements, []⟩ hsets]
    rfl
  unfold readInp
  rw [hfull]
  cases hmn : m.nodes with
  | nil => exact absurd hmn hne
  | cons a l => simp [hmn]

/-- Witness for C2 on a concrete two-node INP file with one element block,
one set block and one unrecognized block. -/
theorem inp_read_write_round_trip_witness :
    readInp (writeInp ⟨[(1, ⟨0, 0, 0⟩), (2, ⟨1, 2, 3⟩)], [⟨"C3D4", [1, 2]⟩], [("S", [2])]⟩)
      = .ok ⟨[(1, ⟨0, 0, 0⟩), (2, ⟨1, 2, 3⟩)], [⟨"C3D4", [1, 2]⟩], [("S", [2])]⟩ :=
  inp_read_write_round_trip
    [.nodeBlock [(1, 0, 0, 0), (2, 1, 2, 3)],
     .elementBlock "C3D4" [(1, [1, 2])],
     .setBlock "S" (.explicitList [2]),
     .unrecognized]
    ⟨[(1, ⟨0, 0, 0⟩), (2, ⟨1, 2, 3⟩)], [⟨"C3D4", [1, 2]⟩], [("S", [2])]⟩
    (by rfl)

/-! ## Step Extractor -/

/-- A parsed record of a STEP DATA section: a 3-D point entity with its
instance id, or a topological connectivity record referencing point
instance ids. -/
inductive StepRecord where
  | pointRec (sid : Nat) (p : Point)
  | connRec (refs : List Nat)
deriving DecidableEq

/-- Modelled from the spec: the quantized coordinate key — each coordinate
divided by the tolerance ε and rounded to the nearest integer (§4.1 step 2
and the §9 design note on tolerance-based equality;
`mesh_converter/converter.py` is not under src/). -/
def quantKey (eps : ℚ) (p : Point) : ℤ × ℤ × ℤ :=
  (round (p.x / eps), round (p.y / eps), round (p.z / eps))

/-- The extraction scan state: quantized-key → node-id map, instance-id →
node-id map, assembled nodes, and the ignored-duplicate count. -/
structure ExtState where
  keyMap : List ((ℤ × ℤ × ℤ) × Nat)
  refMap : List (Nat × Nat)
  nodes : List (Nat × Point)
  ignored : Nat
deriving DecidableEq

/-- Modelled from the spec: the point-scanning pass of the Step Extractor
(§4.1 steps 1-2) — each point record is quantized; a fresh key gets the
next sequential node id starting at 1, while a key already mapped
increments ignored_points and maps the instance id to the existing
node id. -/
def scanPoints (eps : ℚ) : List StepRecord → ExtState → ExtState
  | [], st => st
  | .pointRec sid p :: rest, st =>
    match st.keyMap.find? fun kv => decide (kv.1 = quantKey eps p) with
    | some kv =>
      scanPoints eps rest
        { st with refMap := st.refMap ++ [(sid, kv.2)], ignored := st.ignored + 1 }
    | none =>
      scanPoints eps rest
        { keyMap := st.keyMap ++ [(quantKey eps p, st.nodes.length + 1)]
          refMap := st.refMap ++ [(sid, st.nodes.length + 1)]
          nodes := st.nodes ++ [(st.nodes.length + 1, p)]
          ignored := st.ignored }
  | .connRec _ :: rest, st => scanPoints eps rest st

/-- The element-type tag given to derived elements.  Modelled from the
spec: §4.1 step 3 does not name the tag, so a fixed tag is used. -/
def stepElemTag : String := "STEP"

/-- Modelled from the spec: resolve connectivity references through the
instance-id → node-id map; an unresolved reference fails with
StepParseError (§4.1 step 3). -/
def resolveRefs (refMap : List (Nat × Nat)) : List Nat → Except ConvError (List Nat)
  | [] => .ok []
  | sid :: rest =>
    match refMap.find? fun r => decide (r.1 = sid) with
    | some r =>
      match resolveRefs refMap rest with
      | .ok ids => .ok (r.2 :: ids)
      | .error e => .error e
    | none => .error (.stepError "connectivity record references an unresolved point")

/-- Modelled from the spec: derive one Element per connectivity record
that references two or more points, in record order (§4.1 step 3). -/
def buildElements (refMap : List (Nat × Nat)) :
    List StepRecord → Except ConvError (List Element)
  | [] => .ok []
  | .pointRec _ _ :: rest => buildElements refMap rest
  | .connRec refs :: rest =>
    if 2 ≤ refs.length then
      match resolveRefs refMap refs with
      | .error e => .error e
      | .ok ids =>
        match buildElements refMap rest with
        | .error e => .error e
        | .ok es => .ok (⟨stepElemTag, ids⟩ :: es)
    else buildElements refMap rest

/-- Modelled from the spec: the Step Extractor (§4.1) — scan and
deduplicate points, fail with StepParseError ("no geometry found") when no
point was extracted, then derive elements; returns the Mesh and the
ignored_points count. -/
def extract (eps : ℚ) (recs : List StepRecord) : Except ConvError (Mesh × Nat) :=
  let st := scanPoints eps recs ⟨[], [], [], 0⟩
  if st.nodes.isEmpty then .error (.stepError "no geometry found")
  else
    match buildElements st.refMap recs with
    | .error e => .error e
    | .ok es => .ok (⟨st.nodes, es, []⟩, st.ignored)

/-- Number of point records in a record list. -/
def countPoints : List StepRecord → Nat
  | [] => 0
  | .pointRec _ _ :: rest => countPoints rest + 1
  | .connRec _ :: rest => countPoints rest

/-- Scanning a record list with no point records leaves the state alone. -/
lemma scanPoints_no_points (eps : ℚ) (recs : List StepRecord) :
    countPoints recs = 0 → ∀ st, scanPoints eps recs st = st := by
  induction recs with
  | nil => intro _ st; rfl
  | cons r rest ih =>
    intro h st
    cases r with
    | pointRec sid p => exact absurd h (by simp [countPoints])
    | connRec refs =>
      simp only [countPoints] at h
      simp only [scanPoints]
      exact ih h st

/-- Claim C7: extracting a STEP input with zero point records fails with
StepParseError ("no geometry found") and returns no Mesh. -/
theorem extract_no_points_error (eps : ℚ) (recs : List StepRecord)
    (h : countPoints recs = 0) :
    extract eps recs = .error (.stepError "no geometry found") := by
  unfold extract
  rw [scanPoints_no_points eps recs h ⟨[], [], [], 0⟩]
  rfl

/-- Witness for C7 on an input holding one connectivity record and no
points. -/
theorem extract_no_points_error_witness :
    extract 1 [.connRec [1, 2]] = .error (.stepError "no geometry found") :=
  extract_no_points_error 1 [.connRec [1, 2]] rfl

/-- Two values more than `eps` apart round to different multiples of
`eps`. -/
lemma round_div_ne (eps a b : ℚ) (heps : 0 < eps) (h : eps < |a - b|) :
    round (a / eps) ≠ round (b / eps) := by
  intro heq
  set r : ℚ := ((round (a / eps) : ℤ) : ℚ) with hr
  have h1 : |a / eps - r| ≤ 1 / 2 := abs_sub_round _
  have h2 : |b / eps - r| ≤ 1 / 2 := by
    rw [hr, heq]
    exact abs_sub_round _
  have h3 : |a / eps - b / eps| ≤ 1 := by
    calc |a / eps - b / eps|
        = |(a / eps - r) - (b / eps - r)| := by ring_nf
      _ ≤ |a / eps - r| + |b / eps - r| := abs_sub _ _
      _ ≤ 1 / 2 + 1 / 2 := add_le_add h1 h2
      _ = 1 := by norm_num
  rw [div_sub_div_same, abs_div, abs_of_pos heps] at h3
  have h4 : |a - b| ≤ eps := (div_le_one heps).mp h3
  linarith

/-- Points farther than `eps` apart on some axis have different quantized
keys. -/
lemma quantKey_ne (eps : ℚ) (p q : Point) (heps : 0 < eps)
    (h : eps < |p.x - q.x| ∨ eps < |p.y - q.y| ∨ eps < |p.z - q.z|) :
    quantKey eps p ≠ quantKey eps q := by
  intro heq
  simp only [quantKey, Prod.mk.injEq] at heq
  rcases h with h | h | h
  · exact round_div_ne eps _ _ heps h heq.1
  · exact round_div_ne eps _ _ heps h heq.2.1
  · exact round_div_ne eps _ _ heps h heq.2.2

/-- Claim C3 (amended): for a STEP input of exactly two point records, if
the two points quantize to the same key (each coordinate rounded to the
nearest multiple of ε) extraction yields node_count = 1 and
ignored_points = 1; if they differ by more than ε on some axis (which
forces different keys) it yields node_count = 2 and ignored_points = 0. -/
theorem step_two_point_dedup (eps : ℚ) (p q : Point) (heps : 0 < eps) :
    (quantKey eps p = quantKey eps q →
        extract eps [.pointRec 1 p, .pointRec 2 q] = .ok (⟨[(1, p)], [], []⟩, 1))
      ∧ ((eps < |p.x - q.x| ∨ eps < |p.y - q.y| ∨ eps < |p.z - q.z|) →
        extract eps [.pointRec 1 p, .pointRec 2 q]
          = .ok (⟨[(1, p), (2, q)], [], []⟩, 0)) := by
  constructor
  · intro h
    simp [extract, scanPoints, buildElements, List.find?, h]
  · intro h
    have hne := quantKey_ne eps p q heps h
    simp [extract, scanPoints, buildElements, List.find?, hne]

/-- Witness for C3 (amended) at ε = 1 with points x = 0 and x = 2. -/
theorem step_two_point_dedup_witness :
    (quantKey 1 ⟨0, 0, 0⟩ = quantKey 1 ⟨2, 0, 0⟩ →
        extract 1 [.pointRec 1 ⟨0, 0, 0⟩, .pointRec 2 ⟨2, 0, 0⟩]
          = .ok (⟨[(1, ⟨0, 0, 0⟩)], [], []⟩, 1))
      ∧ ((1 < |(0 : ℚ) - 2| ∨ 1 < |(0 : ℚ) - 0| ∨ 1 < |(0 : ℚ) - 0|) →
        extract 1 [.pointRec 1 ⟨0, 0, 0⟩, .pointRec 2 ⟨2, 0, 0⟩]
          = .ok (⟨[(1, ⟨0, 0, 0⟩), (2, ⟨2, 0, 0⟩)], [], []⟩, 0)) :=
  step_two_point_dedup 1 ⟨0, 0, 0⟩ ⟨2, 0, 0⟩ (by norm_num)

/-- Counterexample to claim C3 as stated: with ε = 10⁻⁶, the points
x = 0.4·ε and x = 0.6·ε differ by at most ε on every axis, yet they round
to different keys (0 and 1), so extraction yields two nodes and zero
ignored points — not node_count = 1, ignored_points = 1. -/
theorem step_dedup_within_eps_cex :
    (|(2 : ℚ) / 5000000 - 3 / 5000000| ≤ 1 / 1000000
      ∧ |(0 : ℚ) - 0| ≤ 1 / 1000000 ∧ |(0 : ℚ) - 0| ≤ 1 / 1000000)
      ∧ extract (1 / 1000000)
          [.pointRec 1 ⟨2 / 5000000, 0, 0⟩, .pointRec 2 ⟨3 / 5000000, 0, 0⟩]
        = .ok (⟨[(1, ⟨2 / 5000000, 0, 0⟩), (2, ⟨3 / 5000000, 0, 0⟩)], [], []⟩, 0)
      ∧ [(1, (⟨2 / 5000000, 0, 0⟩ : Point)), (2, ⟨3 / 5000000, 0, 0⟩)].length ≠ 1 := by
  refine ⟨by norm_num [abs_le], ?_, by decide⟩
  have hk1 : quantKey (1 / 1000000) ⟨2 / 5000000, 0, 0⟩ = (0, 0, 0) := by
    norm_num [quantKey, round_eq]
  have hk2 : quantKey (1 / 1000000) ⟨3 / 5000000, 0, 0⟩ = (1, 0, 0) := by
    norm_num [quantKey, round_eq]
  have hne : quantKey (1 / 1000000) ⟨2 / 5000000, 0, 0⟩
      ≠ quantKey (1 / 1000000) ⟨3 / 5000000, 0, 0⟩ := by
    rw [hk1, hk2]
    decide
  simp only [one_div] at hne
  simp [extract, scanPoints, buildElements, List.find?, hne]

/-! ## The Mesh invariant across the producing operations -/

/-- Contiguous id range 1..n append step. -/
lemma range'_one_concat (n : Nat) :
    List.range' 1 (n + 1) = List.range' 1 n ++ [n + 1] := by
  rw [List.range'_concat]
  norm_num [Nat.add_comm]

/-- The extraction-state invariant: node ids are exactly 1..n in order,
and every key-map and ref-map entry points at a present node id. -/
def extInv (st : ExtState) : Prop :=
  nodeIdsOf st.nodes = List.range' 1 st.nodes.length
    ∧ (∀ kv ∈ st.keyMap, kv.2 ∈ nodeIdsOf st.nodes)
    ∧ (∀ r ∈ st.refMap, r.2 ∈ nodeIdsOf st.nodes)

/-- The point-scanning pass preserves the extraction-state invariant. -/
lemma scanPoints_inv (eps : ℚ) (recs : List StepRecord) :
    ∀ st, extInv st → extInv (scanPoints eps recs st) := by
  induction recs with
  | nil => intro st h; exact h
  | cons r rest ih =>
    intro st h
    obtain ⟨hids, hkey, href⟩ := h
    cases r with
    | connRec refs => exact ih st ⟨hids, hkey, href⟩
    | pointRec sid p =>
      simp only [scanPoints]
      cases hf : st.keyMap.find? fun kv => decide (kv.1 = quantKey eps p) with
      | some kv =>
        apply ih
        refine ⟨hids, hkey, ?_⟩
        intro r hr
        rcases List.mem_append.mp hr with hr | hr
        · exact href r hr
        · simp only [List.mem_singleton] at hr
          subst hr
          exact hkey kv (List.mem_of_find?_eq_some hf)
      | none =>
        apply ih
        have hlen : nodeIdsOf (st.nodes ++ [(st.nodes.length + 1, p)])
            = List.range' 1 (st.nodes ++ [(st.nodes.length + 1, p)]).length := by
          simp only [nodeIdsOf, List.map_append, List.map_cons, List.map_nil,
            List.length_append, List.length_cons, List.length_nil]
          rw [show List.map Prod.fst st.nodes = nodeIdsOf st.nodes from rfl, hids,
            range'_one_concat]
        refine ⟨hlen, ?_, ?_⟩
        · intro kv hkv
          rcases List.mem_append.mp hkv with hkv | hkv
          · simp only [nodeIdsOf, List.map_append, List.mem_append]
            exact Or.inl (hkey kv hkv)
          · simp only [List.mem_singleton] at hkv
            subst hkv
            simp [nodeIdsOf]
        · intro r hr
          rcases List.mem_append.mp hr with hr | hr
          · simp only [nodeIdsOf, List.map_append, List.mem_append]
            exact Or.inl (href r hr)
          · simp only [List.mem_singleton] at hr
            subst hr
            simp [nodeIdsOf]

/-- Ids resolved through the ref map land in any superset of the map's
codomain. -/
lemma resolveRefs_sub (refMap : List (Nat × Nat)) (S : List Nat)
    (hmap : ∀ r ∈ refMap, r.2 ∈ S) :
    ∀ refs ids, resolveRefs refMap refs = .ok ids → ∀ i ∈ ids, i ∈ S := by
  intro refs
  induction refs with
  | nil =>
    intro ids h i hi
    simp only [resolveRefs, Except.ok.injEq] at h
    subst h
    simp at hi
  | cons sid rest ih =>
    intro ids h i hi
    simp only [resolveRefs] at h
    cases hf : refMap.find? fun r => decide (r.1 = sid) with
    | none => rw [hf] at h; exact absurd h (by simp)
    | some r =>
      rw [hf] at h
      cases hrec : resolveRefs refMap rest with
      | error e => rw [hrec] at h; exact absurd h (by simp)
      | ok ids0 =>
        rw [hrec] at h
        simp only [Except.ok.injEq] at h
        subst h
        rcases List.mem_cons.mp hi with hi | hi
        · subst hi
          exact hmap r (List.mem_of_find?_eq_some hf)
        · exact ih ids0 hrec i hi

/-- Every element derived from connectivity records references only ids in
the ref map's codomain superset. -/
lemma buildElements_sub (refMap : List (Nat × Nat)) (S : List Nat)
    (hmap : ∀ r ∈ refMap, r.2 ∈ S) :
    ∀ recs es, buildElements refMap recs = .ok es →
      ∀ e ∈ es, ∀ i ∈ e.nodeIds, i ∈ S := by
  intro recs
  induction recs with
  | nil =>
    intro es h e he
    simp only [buildElements, Except.ok.injEq] at h
    subst h
    simp at he
  | cons r rest ih =>
    intro es h e he i hi
    cases r with
    | pointRec sid p =>
      simp only [buildElements] at h
      exact ih es h e he i hi
    | connRec refs =>
      simp only [buildElements] at h
      split at h
      · cases hres : resolveRefs refMap refs with
        | error e0 => rw [hres] at h; exact absurd h (by simp)
        | ok ids0 =>
          rw [hres] at h
          cases hb : buildElements refMap rest with
          | error e0 => rw [hb] at h; exact absurd h (by simp)
          | ok es0 =>
            rw [hb] at h
            simp only [Except.ok.injEq] at h
            subst h
            rcases List.mem_cons.mp he with he | he
            · subst he
              exact resolveRefs_sub refMap S hmap refs ids0 hres i hi
            · exact ih es0 hb e he i hi
      · exact ih es h e he i hi

/-- Every mesh the Step Extractor returns has contiguous node ids 1..n and
valid references. -/
lemma extract_inv (eps : ℚ) (recs : List StepRecord) (me : Mesh) (ign : Nat)
    (h : extract eps recs = .ok (me, ign)) :
    nodeIdsOf me.nodes = List.range' 1 me.nodes.length ∧ refsOk me := by
  simp only [extract] at h
  have hinv : extInv (scanPoints eps recs ⟨[], [], [], 0⟩) :=
    scanPoints_inv eps recs _ ⟨by simp [nodeIdsOf], by simp, by simp⟩
  split at h
  · exact absurd h (by simp)
  · cases hb : buildElements (scanPoints eps recs ⟨[], [], [], 0⟩).refMap recs with
    | error e => rw [hb] at h; exact absurd h (by simp)
    | ok es =>
      rw [hb] at h
      simp only [Except.ok.injEq, Prod.mk.injEq] at h
      obtain ⟨hme, -⟩ := h
      subst hme
      refine ⟨hinv.1, ?_, by simp⟩
      intro e he
      exact buildElements_sub _ _ hinv.2.2 recs es hb e he

/-- An axis step keeps the node-id sequence, elements and sets of the
mesh. -/
lemma stretchAxis_shape (a : Axis) (d : ℚ) (ids : List Nat) (m : Mesh) :
    nodeIdsOf (stretchAxis a d ids m).1.nodes = nodeIdsOf m.nodes
      ∧ (stretchAxis a d ids m).1.elements = m.elements
      ∧ (stretchAxis a d ids m).1.sets = m.sets := by
  unfold stretchAxis
  by_cases hd : d = 0
  · simp [hd]
  · simp only [if_neg hd]
    refine ⟨?_, ?_, ?_⟩
    · simp only [nodeIdsOf, List.map_map]
      apply List.map_congr_left
      intro n hn
      by_cases hmem : n.1 ∈ ids <;> simp [hmem]
    · trivial
    · trivial

/-- A successful stretch keeps the node-id sequence, elements and sets of
the input mesh. -/
lemma stretch_shape (m : Mesh) (dx dy dz : ℚ) (scope : Option String)
    (m' : Mesh) (s : StretchSummary)
    (hok : stretch m dx dy dz scope = .ok (m', s)) :
    nodeIdsOf m'.nodes = nodeIdsOf m.nodes
      ∧ m'.elements = m.elements ∧ m'.sets = m.sets := by
  unfold stretch at hok
  cases hsc : scopedIds m scope with
  | error e => rw [hsc] at hok; exact absurd hok (by simp)
  | ok ids =>
    rw [hsc] at hok
    simp only [Except.ok.injEq, Prod.mk.injEq] at hok
    obtain ⟨hm, -⟩ := hok
    obtain ⟨h1a, h1b, h1c⟩ := stretchAxis_shape .x dx ids m
    obtain ⟨h2a, h2b, h2c⟩ := stretchAxis_shape .y dy ids (stretchAxis .x dx ids m).1
    obtain ⟨h3a, h3b, h3c⟩ :=
      stretchAxis_shape .z dz ids (stretchAxis .y dy ids (stretchAxis .x dx ids m).1).1
    rw [← hm]
    refine ⟨?_, ?_, ?_⟩
    · rw [h3a, h2a, h1a]
    · rw [h3b, h2b, h1b]
    · rw [h3c, h2c, h1c]

/-- Claim C4 (amended): every Mesh from the Step Extractor has node ids
contiguous from 1 to the node count and references only present node ids;
every Mesh from the Inp Reader references only present node ids (its file
ids need not be contiguous); a stretch preserves the node-id sequence,
elements and sets, hence also reference validity. -/
theorem mesh_invariant_sources
    (eps : ℚ) (recs : List StepRecord) (me : Mesh) (ign : Nat)
    (blocks : List InpBlock) (mr : Mesh)
    (ms : Mesh) (dx dy dz : ℚ) (scope : Option String)
    (ms' : Mesh) (s : StretchSummary)
    (hext : extract eps recs = .ok (me, ign))
    (hread : readInp blocks = .ok mr)
    (hstr : stretch ms dx dy dz scope = .ok (ms', s)) :
    (nodeIdsOf me.nodes = List.range' 1 me.nodes.length ∧ refsOk me)
      ∧ refsOk mr
      ∧ (nodeIdsOf ms'.nodes = nodeIdsOf ms.nodes
          ∧ (refsOk ms → refsOk ms')) := by
  refine ⟨extract_inv eps recs me ign hext, (readInp_wf blocks mr hread).1.2, ?_⟩
  obtain ⟨ha, hb, hc⟩ := stretch_shape ms dx dy dz scope ms' s hstr
  refine ⟨ha, fun h => ⟨?_, ?_⟩⟩
  · intro e he i hi
    rw [hb] at he
    rw [ha]
    exact h.1 e he i hi
  · intro st hst i hi
    rw [hc] at hst
    rw [ha]
    exact h.2 st hst i hi

/-- Witness for C4 (amended): a three-record STEP input, a two-block INP
input with ids 1 and 5, and an all-nodes unit stretch of a two-node
mesh. -/
theorem mesh_invariant_sources_witness :
    (nodeIdsOf (⟨[(1, ⟨0, 0, 0⟩), (2, ⟨2, 0, 0⟩)], [⟨"STEP", [1, 2]⟩], []⟩ : Mesh).nodes
        = List.range' 1
            (⟨[(1, ⟨0, 0, 0⟩), (2, ⟨2, 0, 0⟩)], [⟨"STEP", [1, 2]⟩], []⟩ : Mesh).nodes.length
      ∧ refsOk ⟨[(1, ⟨0, 0, 0⟩), (2, ⟨2, 0, 0⟩)], [⟨"STEP", [1, 2]⟩], []⟩)
      ∧ refsOk ⟨[(1, ⟨0, 0, 0⟩), (5, ⟨1, 0, 0⟩)], [], [("S", [5])]⟩
      ∧ (nodeIdsOf (⟨[(1, ⟨0, 0, 0⟩), (2, ⟨2, 0, 0⟩)], [], []⟩ : Mesh).nodes
          = nodeIdsOf (⟨[(1, ⟨0, 0, 0⟩), (2, ⟨1, 0, 0⟩)], [], []⟩ : Mesh).nodes
        ∧ (refsOk ⟨[(1, ⟨0, 0, 0⟩), (2, ⟨1, 0, 0⟩)], [], []⟩ →
            refsOk ⟨[(1, ⟨0, 0, 0⟩), (2, ⟨2, 0, 0⟩)], [], []⟩)) := by
  refine mesh_invariant_sources 1
    [.pointRec 1 ⟨0, 0, 0⟩, .pointRec 2 ⟨2, 0, 0⟩, .connRec [1, 2]]
    ⟨[(1, ⟨0, 0, 0⟩), (2, ⟨2, 0, 0⟩)], [⟨"STEP", [1, 2]⟩], []⟩ 0
    [.nodeBlock [(1, 0, 0, 0), (5, 1, 0, 0)], .setBlock "S" (.explicitList [5])]
    ⟨[(1, ⟨0, 0, 0⟩), (5, ⟨1, 0, 0⟩)], [], [("S", [5])]⟩
    ⟨[(1, ⟨0, 0, 0⟩), (2, ⟨1, 0, 0⟩)], [], []⟩ 1 0 0 none
    ⟨[(1, ⟨0, 0, 0⟩), (2, ⟨2, 0, 0⟩)], [], []⟩ ⟨2, (1, 0, 0), (2, 0, 0), none⟩
    ?_ (by rfl) ?_
  · have hk1 : quantKey 1 ⟨0, 0, 0⟩ = (0, 0, 0) := by
      norm_num [quantKey, round_eq]
    have hk2 : quantKey 1 ⟨2, 0, 0⟩ = (2, 0, 0) := by
      norm_num [quantKey, round_eq]
    have hne : quantKey 1 (⟨0, 0, 0⟩ : Point) ≠ quantKey 1 ⟨2, 0, 0⟩ := by
      rw [hk1, hk2]
      decide
    simp [extract, scanPoints, buildElements, resolveRefs, List.find?, hne, stepElemTag]
  · norm_num [stretch, scopedIds, setMembers, stretchAxis, scopedCoords, listMin, listMax,
      nodeIdsOf, axisGet, axisSet]

/-- Counterexample to claim C4 as stated: the Inp Reader accepts a file
whose explicit node ids are 1 and 5, and keeps those ids, so a
reader-produced Mesh need not have node ids contiguous from 1 to the node
count. -/
theorem reader_ids_not_contiguous_cex :
    readInp [.nodeBlock [(1, 0, 0, 0), (5, 1, 0, 0)]]
      = .ok ⟨[(1, ⟨0, 0, 0⟩), (5, ⟨1, 0, 0⟩)], [], []⟩
      ∧ nodeIdsOf [(1, (⟨0, 0, 0⟩ : Point)), (5, ⟨1, 0, 0⟩)]
        ≠ List.range' 1 [(1, (⟨0, 0, 0⟩ : Point)), (5, ⟨1, 0, 0⟩)].length :=
  ⟨by rfl, by decide⟩

end MeshConv
